import Mathlib

/-!
# Verification of the jmqtt client-identity derivation pipeline

Shallow embedding of `jmqtt/client_identity/{validation,hashing,facts,client_id}.py`.

Modelling conventions:
* Python `str` is Lean `String` (a list of Unicode code points, matching
  Python's per-code-point indexing, slicing and lexicographic comparison).
* Python `bytes` is `List Nat`, each element `< 256`.
* Python exceptions (`ValueError`) are `Except String`.
* `str.strip()` is modelled for the Latin-1 range of Python's whitespace set;
  `str.lower()` / `str.isalnum()` are modelled on ASCII (all inputs the
  claims exercise are ASCII).
* I/O performed by the code (hostname lookup, platform probing) is modelled
  by an explicit `Env` value holding the probe results.
-/

namespace JMqtt

/-! ## Python string primitives -/

/-- Characters of the Latin-1 range that Python's `str.strip()` removes. -/
def isPyWs (c : Char) : Bool :=
  c = ' ' || c = '\t' || c = '\n' || c = '\r' || c = '\x0b' || c = '\x0c' ||
  c = '\x1c' || c = '\x1d' || c = '\x1e' || c = '\x1f' || c = '\x85' || c = '\xa0'

/-- Python `str.strip()`: drop leading and trailing whitespace. -/
def pyStrip (s : String) : String :=
  String.mk (((s.data.dropWhile isPyWs).reverse.dropWhile isPyWs).reverse)

/-- ASCII model of Python `str.lower()` on a single character. -/
def asciiLower (c : Char) : Char :=
  if 65 ≤ c.toNat ∧ c.toNat ≤ 90 then Char.ofNat (c.toNat + 32) else c

/-- ASCII model of Python `str.lower()`. -/
def strLower (s : String) : String :=
  String.mk (s.data.map asciiLower)

/-- Python `s[:n]` for a non-negative bound `n`. -/
def strTake (s : String) (n : Nat) : String :=
  String.mk (s.data.take n)

/-- UTF-8 encoding of one code point (model of `str.encode("utf-8")`). -/
def utf8Encode (c : Char) : List Nat :=
  let n := c.toNat
  if n < 128 then [n]
  else if n < 2048 then [192 + n / 64, 128 + n % 64]
  else if n < 65536 then [224 + n / 4096, 128 + n / 64 % 64, 128 + n % 64]
  else [240 + n / 262144, 128 + n / 4096 % 64, 128 + n / 64 % 64, 128 + n % 64]

/-- Model of Python `str.encode("utf-8")`. -/
def strToBytes (s : String) : List Nat :=
  (s.data.map utf8Encode).flatten

/-! ## BLAKE2s (RFC 7693), as used by `hashlib.blake2s(data, digest_size=nn)` -/

/-- Addition modulo `2^32`. -/
def add32 (x y : Nat) : Nat := (x + y) % 4294967296

/-- Bitwise xor (operands are kept below `2^32` throughout). -/
def xor32 (x y : Nat) : Nat := Nat.xor x y

/-- Right rotation of a 32-bit word by `n` bits. -/
def rotr32 (x n : Nat) : Nat := x / 2 ^ n + x % 2 ^ n * 2 ^ (32 - n)

/-- The BLAKE2s mixing function G. -/
def g2s (a b c d x y : Nat) : Nat × Nat × Nat × Nat :=
  let a := add32 (add32 a b) x
  let d := rotr32 (xor32 d a) 16
  let c := add32 c d
  let b := rotr32 (xor32 b c) 12
  let a := add32 (add32 a b) y
  let d := rotr32 (xor32 d a) 8
  let c := add32 c d
  let b := rotr32 (xor32 b c) 7
  (a, b, c, d)

/-- The BLAKE2s initialization vector. -/
def blakeIV : List Nat :=
  [1779033703, 3144134277, 1013904242, 2773480762,
   1359893119, 2600822924, 528734635, 1541459225]

/-- The BLAKE2s message schedule (σ permutations). -/
def blakeSigma : List (List Nat) :=
  [[0, 1, 2, 3, 4, 5, 6, 7, 8, 9, 10, 11, 12, 13, 14, 15],
   [14, 10, 4, 8, 9, 15, 13, 6, 1, 12, 0, 2, 11, 7, 5, 3],
   [11, 8, 12, 0, 5, 2, 15, 13, 10, 14, 3, 6, 7, 1, 9, 4],
   [7, 9, 3, 1, 13, 12, 11, 14, 2, 6, 5, 10, 4, 0, 15, 8],
   [9, 0, 5, 7, 2, 4, 10, 15, 14, 1, 11, 12, 6, 8, 3, 13],
   [2, 12, 6, 10, 0, 11, 8, 3, 4, 13, 7, 5, 15, 14, 1, 9],
   [12, 5, 1, 15, 14, 13, 4, 10, 0, 7, 6, 3, 9, 2, 8, 11],
   [13, 11, 7, 14, 12, 1, 3, 9, 5, 0, 15, 4, 8, 6, 2, 10],
   [6, 15, 14, 9, 11, 3, 0, 8, 12, 2, 13, 7, 1, 4, 10, 5],
   [10, 2, 8, 4, 7, 6, 1, 5, 15, 11, 9, 14, 3, 12, 13, 0]]

/-- The 8-word BLAKE2s chaining state. -/
structure H8 where
  h0 : Nat
  h1 : Nat
  h2 : Nat
  h3 : Nat
  h4 : Nat
  h5 : Nat
  h6 : Nat
  h7 : Nat

/-- The 16-word BLAKE2s working state. -/
structure V16 where
  v0 : Nat
  v1 : Nat
  v2 : Nat
  v3 : Nat
  v4 : Nat
  v5 : Nat
  v6 : Nat
  v7 : Nat
  v8 : Nat
  v9 : Nat
  v10 : Nat
  v11 : Nat
  v12 : Nat
  v13 : Nat
  v14 : Nat
  v15 : Nat

/-- One BLAKE2s round: eight applications of `g2s` along the round's σ row. -/
def blakeRound (v : V16) (m : Nat → Nat) (s : Nat → Nat) : V16 :=
  match g2s v.v0 v.v4 v.v8 v.v12 (m (s 0)) (m (s 1)) with
  | (a0, b0, c0, d0) =>
  match g2s v.v1 v.v5 v.v9 v.v13 (m (s 2)) (m (s 3)) with
  | (a1, b1, c1, d1) =>
  match g2s v.v2 v.v6 v.v10 v.v14 (m (s 4)) (m (s 5)) with
  | (a2, b2, c2, d2) =>
  match g2s v.v3 v.v7 v.v11 v.v15 (m (s 6)) (m (s 7)) with
  | (a3, b3, c3, d3) =>
  match g2s a0 b1 c2 d3 (m (s 8)) (m (s 9)) with
  | (a4, b4, c4, d4) =>
  match g2s a1 b2 c3 d0 (m (s 10)) (m (s 11)) with
  | (a5, b5, c5, d5) =>
  match g2s a2 b3 c0 d1 (m (s 12)) (m (s 13)) with
  | (a6, b6, c6, d6) =>
  match g2s a3 b0 c1 d2 (m (s 14)) (m (s 15)) with
  | (a7, b7, c7, d7) =>
  ⟨a4, a5, a6, a7, b7, b4, b5, b6, c6, c7, c4, c5, d5, d6, d7, d4⟩

/-- Little-endian 32-bit word at word index `i` of a 64-byte block. -/
def blockWord (bs : List Nat) (i : Nat) : Nat :=
  bs.getD (4 * i) 0 + 256 * bs.getD (4 * i + 1) 0 +
    65536 * bs.getD (4 * i + 2) 0 + 16777216 * bs.getD (4 * i + 3) 0

/-- The BLAKE2s compression function F (RFC 7693 §3.2). -/
def blakeCompress (h : H8) (m : Nat → Nat) (t : Nat) (f : Bool) : H8 :=
  let iv := fun i => blakeIV.getD i 0
  let v : V16 :=
    ⟨h.h0, h.h1, h.h2, h.h3, h.h4, h.h5, h.h6, h.h7,
     iv 0, iv 1, iv 2, iv 3,
     xor32 (iv 4) (t % 4294967296), xor32 (iv 5) (t / 4294967296 % 4294967296),
     if f then xor32 (iv 6) 4294967295 else iv 6, iv 7⟩
  let v := (List.range 10).foldl
    (fun v r => blakeRound v m (fun i => (blakeSigma.getD (r % 10) []).getD i 0)) v
  ⟨xor32 h.h0 (xor32 v.v0 v.v8), xor32 h.h1 (xor32 v.v1 v.v9),
   xor32 h.h2 (xor32 v.v2 v.v10), xor32 h.h3 (xor32 v.v3 v.v11),
   xor32 h.h4 (xor32 v.v4 v.v12), xor32 h.h5 (xor32 v.v5 v.v13),
   xor32 h.h6 (xor32 v.v6 v.v14), xor32 h.h7 (xor32 v.v7 v.v15)⟩

/-- Process the message blocks: all but the last with a running byte counter,
the last (possibly short or empty) block with `f = true` (RFC 7693 §3.3).
The `fuel` parameter makes the recursion structural; it is initialized to the
message length, which bounds the number of 64-byte steps. -/
def blakeLoop (fuel : Nat) (h : H8) (bs : List Nat) (t : Nat) : H8 :=
  match fuel with
  | 0 => blakeCompress h (blockWord bs) (t + bs.length) true
  | fuel + 1 =>
    if bs.length ≤ 64 then
      blakeCompress h (blockWord bs) (t + bs.length) true
    else
      blakeLoop fuel (blakeCompress h (blockWord (bs.take 64)) (t + 64) false)
        (bs.drop 64) (t + 64)

/-- Little-endian serialization of one 32-bit word. -/
def le4 (w : Nat) : List Nat :=
  [w % 256, w / 256 % 256, w / 65536 % 256, w / 16777216 % 256]

/-- Little-endian serialization of the chaining state (32 bytes). -/
def serializeH (h : H8) : List Nat :=
  le4 h.h0 ++ le4 h.h1 ++ le4 h.h2 ++ le4 h.h3 ++
    le4 h.h4 ++ le4 h.h5 ++ le4 h.h6 ++ le4 h.h7

/-- Unkeyed BLAKE2s with digest length `nn` bytes:
`hashlib.blake2s(data, digest_size=nn).digest()` (validity of `nn` is
checked by the caller, as `hashlib` does in its constructor). -/
def blake2s (data : List Nat) (nn : Nat) : List Nat :=
  let iv := fun i => blakeIV.getD i 0
  let h0 : H8 :=
    ⟨xor32 (iv 0) (Nat.xor 16842752 nn), iv 1, iv 2, iv 3, iv 4, iv 5, iv 6, iv 7⟩
  (serializeH (blakeLoop data.length h0 data 0)).take nn

/-! ## Base-32 encoding (`base64.b32encode(...).rstrip("=")`) -/

/-- The RFC 4648 base-32 alphabet. -/
def b32Alphabet : List Char := "ABCDEFGHIJKLMNOPQRSTUVWXYZ234567".data

/-- The `i % 32`-th base-32 alphabet character. -/
def b32Char (i : Nat) : Char := b32Alphabet.getD (i % 32) 'A'

/-- A (possibly zero-padded) 5-byte group as a big-endian 40-bit number. -/
def n40 (l : List Nat) : Nat :=
  l.getD 0 0 * 4294967296 + l.getD 1 0 * 16777216 + l.getD 2 0 * 65536 +
    l.getD 3 0 * 256 + l.getD 4 0

/-- The first `k` base-32 characters of a 40-bit group. -/
def chunkChars (k n : Nat) : List Char :=
  (List.range k).map (fun j => b32Char (n / 2 ^ (35 - 5 * j)))

/-- Number of data (non-pad) characters produced for a final group of
`r ∈ [1,4]` bytes. -/
def partialLen (r : Nat) : Nat :=
  match r with
  | 1 => 2
  | 2 => 4
  | 3 => 5
  | _ => 7

/-- Model of `base64.b32encode(bs)` with the `"="` padding already stripped,
i.e. of the composition `b32encode(bs).rstrip("=")` the code computes:
full 5-byte groups yield 8 characters, a trailing partial group of `r` bytes
yields its `partialLen r` data characters (the pad characters it would have
produced are exactly the ones `rstrip("=")` removes). -/
def b32stripped : List Nat → List Char
  | [] => []
  | [b0] => chunkChars (partialLen 1) (n40 [b0])
  | [b0, b1] => chunkChars (partialLen 2) (n40 [b0, b1])
  | [b0, b1, b2] => chunkChars (partialLen 3) (n40 [b0, b1, b2])
  | [b0, b1, b2, b3] => chunkChars (partialLen 4) (n40 [b0, b1, b2, b3])
  | b0 :: b1 :: b2 :: b3 :: b4 :: rest =>
    chunkChars 8 (n40 [b0, b1, b2, b3, b4]) ++ b32stripped rest

/-! ## `hashing.py` -/

/-- Model of `_compose_content(seed, namespace)`: validate the hash inputs and join the
optional namespace and the trimmed seed with the `0x1F` separator. -/
def composeContent (seed : String) (namespace? : Option String) : Except String String :=
  if pyStrip seed = "" then
    .error "seed must be a non-empty string"
  else
    match namespace? with
    | none => .ok (pyStrip seed)
    | some ns =>
      if pyStrip ns = "" then
        .error "namespace must be a non-empty string when provided"
      else
        .ok (pyStrip ns ++ "\x1f" ++ pyStrip seed)

/-- Model of `build_compact_token(seed, length, namespace)`: hash the composed content
with BLAKE2s at `digest_size = max(10, ceil(length * 5 / 8))`, base-32 encode,
strip padding, lowercase, truncate to `length`.  The `digest_size ≤ 32` check
models the `ValueError` raised by the `hashlib.blake2s` constructor. -/
def build_compact_token (seed : String) (length : Nat := 16)
    (namespace? : Option String := none) : Except String String :=
  if length < 1 then
    .error "length must be >= 1"
  else
    match composeContent seed namespace? with
    | .error e => .error e
    | .ok content =>
      let digest_size := max 10 ((5 * length + 7) / 8)
      if 32 < digest_size then
        .error "digest_size must be between 1 and 32"
      else
        let raw := blake2s (strToBytes content) digest_size
        let encoded := (b32stripped raw).map asciiLower
        .ok (String.mk (encoded.take length))

/-! ## `validation.py` -/

/-- One character of the `^[A-Za-z0-9-]+$` component pattern
(`'-'` has code point 45). -/
def isComponentChar (c : Char) : Bool :=
  (65 ≤ c.toNat && c.toNat ≤ 90) || (97 ≤ c.toNat && c.toNat ≤ 122) ||
    (48 ≤ c.toNat && c.toNat ≤ 57) || c.toNat = 45

/-- Model of `validate_client_id_component(value, field)`: require a (string) value
that is non-empty after trimming and entirely matches `[A-Za-z0-9-]+`;
return the trimmed value lowercased (`normalized` in the source is the
trimmed value `pyStrip value`, inlined here). -/
def validate_client_id_component (value : String) (field : String) : Except String String :=
  if pyStrip value = "" then
    .error (field ++ " is invalid: value must not be empty.")
  else if (pyStrip value).data.all isComponentChar then
    .ok (strLower (pyStrip value))
  else
    .error (field ++ " is invalid: only letters, digits and '-' are allowed.")

/-! ## `facts.py` -/

/-- A `(kind, address)` pair. -/
abbrev Connection := String × String

/-- Constant `CONN_MAC`. -/
def CONN_MAC : String := "mac"

/-- Constant `CONN_BT`. -/
def CONN_BT : String := "bluetooth"

/-- ASCII model of Python `str.isalnum` on one character. -/
def isPyAlnum (c : Char) : Bool :=
  (48 ≤ c.toNat && c.toNat ≤ 57) || (65 ≤ c.toNat && c.toNat ≤ 90) ||
    (97 ≤ c.toNat && c.toNat ≤ 122)

/-- The lowercase hexadecimal digits. -/
def hexChars : List Char := "0123456789abcdef".data

/-- Model of `":".join(raw[i:i+2] for i in range(0, 12, 2))`: regroup a list of
characters into colon-separated pairs. -/
def pairJoin : List Char → List Char
  | a :: b :: rest => if rest.isEmpty then [a, b] else a :: b :: ':' :: pairJoin rest
  | l => l

/-- Model of `_normalize_mac(s)`: keep only alphanumeric characters, lowercase, require
exactly 12 hex digits, and re-insert colons between octets. -/
def normalizeMac (s : String) : Option String :=
  let raw := (s.data.filter isPyAlnum).map asciiLower
  if raw.length = 12 && raw.all (fun c => hexChars.contains c) then
    some (String.mk (pairJoin raw))
  else
    none

/-- Value of one hexadecimal digit. -/
def hexVal (c : Char) : Nat :=
  if 48 ≤ c.toNat && c.toNat ≤ 57 then c.toNat - 48
  else if 97 ≤ c.toNat && c.toNat ≤ 102 then c.toNat - 87
  else if 65 ≤ c.toNat && c.toNat ≤ 70 then c.toNat - 55
  else 0

/-- Whether a character is a hexadecimal digit. -/
def isHexChar (c : Char) : Bool :=
  (48 ≤ c.toNat && c.toNat ≤ 57) || (97 ≤ c.toNat && c.toNat ≤ 102) ||
    (65 ≤ c.toNat && c.toNat ≤ 70)

/-- Model of `int(s, 16)` on a plain hex literal; `none` models the
`ValueError` for anything else. -/
def parseHex (l : List Char) : Option Nat :=
  if l ≠ [] && l.all isHexChar then
    some (l.foldl (fun acc c => 16 * acc + hexVal c) 0)
  else
    none

/-- Model of `_is_global_mac(mac)`: parse the first octet (the characters before the
first colon) and require both the multicast bit `0x01` and the
locally-administered bit `0x02` to be clear; any parse failure yields
`False`. -/
def isGlobalMac (mac : String) : Bool :=
  match parseHex (mac.data.takeWhile (fun c => c ≠ ':')) with
  | some first => Nat.land first 1 = 0 && Nat.land first 2 = 0
  | none => false

/-- Insertion into a Python `set`, modelled on lists (no-op on a duplicate). -/
def setInsert (l : List Connection) (x : Connection) : List Connection :=
  if l.contains x then l else l ++ [x]

/-- The body of the `for kind, value in conns` loop of
`_normalize_connections`: normalize the address, drop malformed entries,
empty kinds, placeholder (all-zero / all-ff) addresses and non-global MACs,
and insert what remains into the output set. -/
def normalizeStep (out : List Connection) (kv : Connection) : List Connection :=
  match normalizeMac kv.2 with
  | none => out
  | some mac =>
    if kv.1 = "" then out
    else if mac = "00:00:00:00:00:00" || mac = "ff:ff:ff:ff:ff:ff" then out
    else if kv.1 = CONN_MAC then
      if isGlobalMac mac then setInsert out (CONN_MAC, mac) else out
    else if kv.1 = CONN_BT then setInsert out (CONN_BT, mac)
    else out

/-- Model of `_normalize_connections(conns)`: run `normalizeStep` over every supplied
connection, starting from the empty output set. -/
def normalize_connections (conns : List Connection) : List Connection :=
  conns.foldl normalizeStep []

/-- The ambient I/O the code consults: the hostname probe
(`socket.gethostname()`, `none` models an exception) and the results the
platform probes of `collect_device_facts` would gather. -/
structure Env where
  hostname : Option String
  probedSerial : Option String
  probedConnections : List Connection

/-- Model of `collect_device_facts()`: the platform probes (modelled by `Env`) produce
a serial and a raw connection set, and the connections are passed through
`_normalize_connections` before being returned. -/
def collect_device_facts (env : Env) : Option String × List Connection :=
  (env.probedSerial, normalize_connections env.probedConnections)

/-! ## `client_id.py` -/

/-- Constant `DEFAULT_MAX_CLIENT_ID_LENGTH`. -/
def DEFAULT_MAX_CLIENT_ID_LENGTH : Nat := 23

/-- The sort key rank of a connection kind: `mac` before `bluetooth` before
anything else. -/
def connRank (kind : String) : Nat :=
  if kind = CONN_MAC then 0 else if kind = CONN_BT then 1 else 2

/-- The ordering `sorted(connections, key=lambda x: (rank, x[1]))` sorts by:
lexicographic on the pair (type rank, raw address). -/
def connLe (c d : Connection) : Prop :=
  connRank c.1 < connRank d.1 ∨ (connRank c.1 = connRank d.1 ∧ c.2 ≤ d.2)

instance : DecidableRel connLe := fun c d =>
  inferInstanceAs (Decidable (connRank c.1 < connRank d.1 ∨
    (connRank c.1 = connRank d.1 ∧ c.2 ≤ d.2)))

instance : IsTotal Connection connLe where
  total a b := by
    unfold connLe
    rcases Nat.lt_trichotomy (connRank a.1) (connRank b.1) with h | h | h
    · exact Or.inl (Or.inl h)
    · rcases le_total a.2 b.2 with h2 | h2
      · exact Or.inl (Or.inr ⟨h, h2⟩)
      · exact Or.inr (Or.inr ⟨h.symm, h2⟩)
    · exact Or.inr (Or.inl h)

instance : IsTrans Connection connLe where
  trans a b c hab hbc := by
    unfold connLe at *
    rcases hab with h1 | ⟨e1, l1⟩ <;> rcases hbc with h2 | ⟨e2, l2⟩
    · exact Or.inl (by omega)
    · exact Or.inl (by omega)
    · exact Or.inl (by omega)
    · exact Or.inr ⟨by omega, le_trans l1 l2⟩

/-- The `for kind, value in sorted(...)` loop body: return
`f"{kind}:{value.strip().lower()}"` for the first entry whose address is
non-empty after trimming. -/
def firstUsable : List Connection → Option String
  | [] => none
  | (kind, value) :: rest =>
    if pyStrip value = "" then firstUsable rest
    else some (kind ++ ":" ++ strLower (pyStrip value))

/-- The hostname fallback tail of `resolve_device_fingerprint`
(`host` in the source is `strLower (pyStrip hn)`, inlined here). -/
def hostFallback (env : Env) : String :=
  match env.hostname with
  | some hn =>
    if strLower (pyStrip hn) = "" then "host:unknown"
    else "host:" ++ strLower (pyStrip hn)
  | none => "host:unknown"

/-- The connection-scanning-plus-hostname tail of
`resolve_device_fingerprint` (everything after the serial check). -/
def resolveConns (env : Env) (connections : List Connection) : String :=
  match firstUsable (List.insertionSort connLe connections) with
  | some r => r
  | none => hostFallback env

/-- Model of `resolve_device_fingerprint(serial_number, connections)`: serial first,
then the best connection in `(type_rank, address)` order, then hostname,
then the literal `host:unknown`. -/
def resolve_device_fingerprint (env : Env) (serial_number : Option String)
    (connections : List Connection) : String :=
  match serial_number with
  | some s =>
    if pyStrip s = "" then resolveConns env connections
    else "sn:" ++ strLower (pyStrip s)
  | none => resolveConns env connections

/-- Model of `build_auto_client_id(app_name, instance_id, *, max_length,
serial_number, connections)`. -/
def build_auto_client_id (env : Env) (app_name : String)
    (instance_id : Option String := none)
    (max_length : Nat := DEFAULT_MAX_CLIENT_ID_LENGTH)
    (serial_number : Option String := none)
    (connections : Option (List Connection) := none) : Except String String :=
  match validate_client_id_component app_name "app_name" with
  | .error e => .error e
  | .ok app_name_norm =>
  match (match instance_id with
         | none => Except.ok none
         | some iid => (validate_client_id_component iid "instance_id").map some) with
  | .error e => .error e
  | .ok instance_norm =>
  if max_length < 8 then .error "max_length must be >= 8"
  else
    let sc : Option String × List Connection :=
      match serial_number, connections with
      | none, none => collect_device_facts env
      | s, none => (s, [])
      | s, some l => (s, l)
    let fingerprint := resolve_device_fingerprint env sc.1 sc.2
    let seed := fingerprint ++ "\x1f" ++ app_name_norm
    let seed := match instance_norm with
                | some i => seed ++ "\x1f" ++ i
                | none => seed
    let hash_length := min 12 (max 8 (max_length - 4))
    match build_compact_token seed hash_length (some "mqtt-client") with
    | .error e => .error e
    | .ok suffix =>
      let prefix_budget := max_length - suffix.length - 1
      if prefix_budget = 0 then .ok (strTake suffix max_length)
      else
        let pfx := strTake app_name_norm prefix_budget
        if pfx = "" then .ok (strTake suffix max_length)
        else .ok (strTake (pfx ++ "-" ++ suffix) max_length)

/-! ## Derived character classes and spec-side definitions -/

/-- A lowercase letter, a digit, or the hyphen: the client-identifier
alphabet of the spec's invariant. -/
def isLowerIdChar (c : Char) : Bool :=
  (97 ≤ c.toNat && c.toNat ≤ 122) || (48 ≤ c.toNat && c.toNat ≤ 57) || c.toNat = 45

/-- The lowercase base-32 alphabet `[a-z2-7]` of the spec. -/
def b32LowerAlphabet : List Char := "abcdefghijklmnopqrstuvwxyz234567".data

/-- A lowercase letter or digit. -/
def isLowerAlnumChar (c : Char) : Bool :=
  (97 ≤ c.toNat && c.toNat ≤ 122) || (48 ≤ c.toNat && c.toNat ≤ 57)

/-- Split a character list at every hyphen (the resulting list of parts is
always non-empty; an empty input yields one empty part). -/
def splitHyphens : List Char → List (List Char)
  | [] => [[]]
  | c :: rest =>
    match splitHyphens rest with
    | [] => [[]]
    | p :: ps => if c = '-' then [] :: p :: ps else (c :: p) :: ps

/-- Decision procedure for the spec's regular expression
`^[a-z0-9]+(-[a-z0-9]+)*$`: split on hyphens and require every part to be a
non-empty run of lowercase letters and digits. -/
def matchesIdShape (s : String) : Bool :=
  (splitHyphens s.data).all (fun part => !part.isEmpty && part.all isLowerAlnumChar)

/-- The spec's `clamp(x, lo, hi)`. -/
def specClamp (x lo hi : Nat) : Nat := max lo (min hi x)

/-- The spec's end-to-end scenario, stated from the spec's own words: compose
the seed `"sn:serial-client\x1fagent\x1fworker1"`, hash it into the
configured namespace at hash length `clamp(max_length - 4, 8, 12)`, and
join the prefix `"agent"` truncated to `max_length - len(suffix) - 1` with
a hyphen. -/
def specScenarioClientId (max_length : Nat) : Except String String :=
  match build_compact_token "sn:serial-client\x1fagent\x1fworker1"
      (specClamp (max_length - 4) 8 12) (some "mqtt-client") with
  | .error e => .error e
  | .ok suffix =>
    .ok (strTake "agent" (max_length - suffix.length - 1) ++ "-" ++ suffix)

/-- An environment in which every probe fails: no hostname, no serial, no
detected connections. -/
def emptyEnv : Env := ⟨none, none, []⟩

/-! ## Basic lemmas about the string primitives -/

theorem strdata_mk (l : List Char) : (String.mk l).data = l := rfl

theorem strdata_append (s t : String) : (s ++ t).data = s.data ++ t.data := rfl

theorem strlength_eq_data (s : String) : s.length = s.data.length := rfl

theorem strTake_data (s : String) (n : Nat) : (strTake s n).data = s.data.take n := rfl

theorem strLower_data (s : String) : (strLower s).data = s.data.map asciiLower := rfl

theorem toNat_asciiLower (c : Char) :
    (asciiLower c).toNat =
      if 65 ≤ c.toNat ∧ c.toNat ≤ 90 then c.toNat + 32 else c.toNat := by
  unfold asciiLower
  split
  · next h =>
    have hv : (c.toNat + 32).isValidChar := Or.inl (by omega)
    show (Char.ofNat (c.toNat + 32)).toNat = c.toNat + 32
    unfold Char.ofNat
    rw [dif_pos hv]
    simp [Char.toNat, UInt32.toNat, Char.ofNatAux]
  · rfl

theorem isComponentChar_lower {c : Char} (h : isComponentChar c = true) :
    isLowerIdChar (asciiLower c) = true := by
  have hl := toNat_asciiLower c
  simp only [isComponentChar, Bool.or_eq_true, decide_eq_true_eq,
    Bool.and_eq_true] at h
  simp only [isLowerIdChar, Bool.or_eq_true, decide_eq_true_eq, Bool.and_eq_true]
  split at hl <;> omega

/-! ## Lemmas about the validator -/

theorem validate_ok_iff {v f s : String} :
    validate_client_id_component v f = .ok s ↔
      pyStrip v ≠ "" ∧ (pyStrip v).data.all isComponentChar = true ∧
        s = strLower (pyStrip v) := by
  unfold validate_client_id_component
  split_ifs with h1 h2
  · exact ⟨(fun h => nomatch h), fun h => absurd h1 h.1⟩
  · constructor
    · intro h
      simp only [Except.ok.injEq] at h
      exact ⟨h1, h2, h.symm⟩
    · rintro ⟨-, -, rfl⟩; rfl
  · exact ⟨(fun h => nomatch h), fun h => absurd h.2.1 h2⟩

theorem validate_error_iff {v f : String} :
    (∃ e, validate_client_id_component v f = .error e) ↔
      (pyStrip v = "" ∨ ¬ (pyStrip v).data.all isComponentChar = true) := by
  unfold validate_client_id_component
  split_ifs <;> simp_all

theorem validate_ok_chars {v f s : String}
    (h : validate_client_id_component v f = .ok s) :
    ∀ c ∈ s.data, isLowerIdChar c = true := by
  obtain ⟨-, hall, rfl⟩ := validate_ok_iff.mp h
  intro c hc
  rw [strLower_data] at hc
  obtain ⟨d, hd, rfl⟩ := List.mem_map.mp hc
  exact isComponentChar_lower (List.all_eq_true.mp hall d hd)

/-- Claim C7: `validate_component(value, field)` errors iff the value (here
necessarily a string) is empty after trimming or the trimmed value does not
entirely match `[A-Za-z0-9-]+`; on success it returns the trimmed value
lowercased.  `validate_component("bad name!", ...)` fails and
`validate_component("My-App1", ...)` returns `"my-app1"`. -/
theorem claim_C7_validator_contract :
    ∀ v f : String,
      ((∃ e, validate_client_id_component v f = Except.error e) ↔
        ¬(pyStrip v ≠ "" ∧ (pyStrip v).data.all isComponentChar = true)) ∧
      (∀ s, validate_client_id_component v f = Except.ok s →
        s = strLower (pyStrip v)) ∧
      (∃ e, validate_client_id_component "bad name!" "app_name" = Except.error e) ∧
      validate_client_id_component "My-App1" "app_name" = Except.ok "my-app1" := by
  intro v f
  refine ⟨?_, ?_, ⟨_, rfl⟩, rfl⟩
  · rw [validate_error_iff]; tauto
  · intro s hs; exact (validate_ok_iff.mp hs).2.2

/-- Witness for C7 at the two concrete inputs of the claim. -/
theorem claim_C7_validator_contract_witness :
    validate_client_id_component "My-App1" "app_name" = Except.ok "my-app1" ∧
    (∃ e, validate_client_id_component "bad name!" "app_name" = Except.error e) :=
  ⟨(claim_C7_validator_contract "My-App1" "app_name").2.2.2,
   (claim_C7_validator_contract "bad name!" "app_name").1.mpr (by decide)⟩

/-! ## Lemmas about the token hasher -/

theorem chunkChars_length (k n : Nat) : (chunkChars k n).length = k := by
  simp [chunkChars]

theorem b32Char_mem (n : Nat) : b32Char n ∈ b32Alphabet := by
  have h : n % 32 < b32Alphabet.length := Nat.mod_lt n (by decide)
  rw [b32Char, List.getD_eq_getElem _ _ h]
  exact List.getElem_mem h

theorem chunkChars_subset {c : Char} {k n : Nat} (h : c ∈ chunkChars k n) :
    c ∈ b32Alphabet := by
  simp only [chunkChars, List.mem_map, List.mem_range] at h
  obtain ⟨j, -, rfl⟩ := h
  exact b32Char_mem _

theorem b32stripped_length (bs : List Nat) :
    (b32stripped bs).length = (8 * bs.length + 4) / 5 := by
  induction bs using b32stripped.induct with
  | case6 b0 b1 b2 b3 b4 rest ih =>
    rw [show b32stripped (b0 :: b1 :: b2 :: b3 :: b4 :: rest) =
        chunkChars 8 (n40 [b0, b1, b2, b3, b4]) ++ b32stripped rest from rfl,
      List.length_append, chunkChars_length, ih]
    simp only [List.length_cons]
    omega
  | _ => simp [b32stripped, chunkChars_length, partialLen]

theorem b32stripped_subset {c : Char} :
    ∀ {bs : List Nat}, c ∈ b32stripped bs → c ∈ b32Alphabet := by
  intro bs
  induction bs using b32stripped.induct with
  | case1 => intro h; simp [b32stripped] at h
  | case6 b0 b1 b2 b3 b4 rest ih =>
    intro h
    rw [show b32stripped (b0 :: b1 :: b2 :: b3 :: b4 :: rest) =
        chunkChars 8 (n40 [b0, b1, b2, b3, b4]) ++ b32stripped rest from rfl] at h
    rcases List.mem_append.mp h with h' | h'
    · exact chunkChars_subset h'
    · exact ih h'
  | _ => intro h; exact chunkChars_subset (by simpa [b32stripped] using h)

theorem mem_b32Alphabet_lower : ∀ c ∈ b32Alphabet, asciiLower c ∈ b32LowerAlphabet := by
  decide

theorem mem_b32LowerAlphabet_idChar : ∀ c ∈ b32LowerAlphabet, isLowerIdChar c = true := by
  decide

theorem serializeH_length (h : H8) : (serializeH h).length = 32 := by
  simp [serializeH, le4]

theorem blake2s_length (data : List Nat) (nn : Nat) :
    (blake2s data nn).length = min nn 32 := by
  simp only [blake2s]
  rw [List.length_take, serializeH_length]

theorem composeContent_ok {seed : String} {ns : Option String}
    (h3 : pyStrip seed ≠ "") (h4 : ∀ n, ns = some n → pyStrip n ≠ "") :
    ∃ content, composeContent seed ns = .ok content := by
  unfold composeContent
  rw [if_neg h3]
  cases ns with
  | none => exact ⟨_, rfl⟩
  | some n =>
    dsimp only
    rw [if_neg (h4 n rfl)]
    exact ⟨_, rfl⟩

theorem token_ok_parts {seed : String} {L : Nat} {ns : Option String} {t : String}
    (h : build_compact_token seed L ns = .ok t) :
    ∃ content, composeContent seed ns = .ok content ∧
      t = String.mk (((b32stripped (blake2s (strToBytes content)
          (max 10 ((5 * L + 7) / 8)))).map asciiLower).take L) ∧
      max 10 ((5 * L + 7) / 8) ≤ 32 ∧ 1 ≤ L := by
  unfold build_compact_token at h
  split at h
  · simp at h
  · split at h
    · simp at h
    · next content heq =>
      dsimp only at h
      split at h
      · simp at h
      · next hds =>
        simp only [Except.ok.injEq] at h
        exact ⟨content, heq, h.symm, by omega, by omega⟩

theorem token_ok_exists {seed : String} {L : Nat} {ns : Option String}
    (h1 : 1 ≤ L) (h2 : L ≤ 51) (h3 : pyStrip seed ≠ "")
    (h4 : ∀ n, ns = some n → pyStrip n ≠ "") :
    ∃ t, build_compact_token seed L ns = .ok t := by
  obtain ⟨content, hc⟩ := composeContent_ok h3 h4
  cases htok : build_compact_token seed L ns with
  | ok t => exact ⟨t, rfl⟩
  | error e =>
    exfalso
    unfold build_compact_token at htok
    rw [if_neg (by omega), hc] at htok
    dsimp only at htok
    rw [if_neg (by omega)] at htok
    cases htok

theorem token_ok_length {seed : String} {L : Nat} {ns : Option String} {t : String}
    (h : build_compact_token seed L ns = .ok t) : t.length = L := by
  obtain ⟨content, -, rfl, hds, hL⟩ := token_ok_parts h
  rw [strlength_eq_data, strdata_mk, List.length_take, List.length_map,
    b32stripped_length, blake2s_length]
  omega

theorem token_ok_alphabet {seed : String} {L : Nat} {ns : Option String} {t : String}
    (h : build_compact_token seed L ns = .ok t) :
    ∀ c ∈ t.data, c ∈ b32LowerAlphabet := by
  obtain ⟨content, -, rfl, -, -⟩ := token_ok_parts h
  intro c hc
  rw [strdata_mk] at hc
  obtain ⟨d, hd, rfl⟩ := List.mem_map.mp (List.mem_of_mem_take hc)
  exact mem_b32Alphabet_lower d (b32stripped_subset hd)

/-- Claim C10: for every `length ≥ 52` and valid seed/namespace,
`build_compact_token` raises, because the requested digest size
`ceil(length * 5 / 8)` exceeds the 32-byte maximum of BLAKE2s. -/
theorem claim_C10_token_length_cap :
    ∀ (L : Nat) (seed : String) (ns : Option String),
      52 ≤ L → pyStrip seed ≠ "" → (∀ n, ns = some n → pyStrip n ≠ "") →
      build_compact_token seed L ns =
        Except.error "digest_size must be between 1 and 32" := by
  intro L seed ns hL h3 h4
  obtain ⟨content, hc⟩ := composeContent_ok h3 h4
  unfold build_compact_token
  rw [if_neg (by omega), hc]
  dsimp only
  rw [if_pos (by omega)]

/-- Witness for C10 at `length = 52`. -/
theorem claim_C10_token_length_cap_witness :
    build_compact_token "same-seed" 52 (some "ns") =
      Except.error "digest_size must be between 1 and 32" :=
  claim_C10_token_length_cap 52 "same-seed" (some "ns") (by omega) (by decide)
    (by intro n hn; cases hn; decide)

/-- Counterexample to claim C6 as stated: at `length = 52` (with a valid seed
and namespace) `build_compact_token` does not return a 52-character string;
it raises the digest-size error. -/
theorem claim_C6_counterexample :
    build_compact_token "same-seed" 52 (some "ns") =
      Except.error "digest_size must be between 1 and 32" := rfl

/-- Claim C6 (amended): for every `1 ≤ length ≤ 51`, non-empty trimmed seed,
and absent-or-non-empty namespace, `build_compact_token` succeeds with a
string of exactly `length` characters drawn from `[a-z2-7]`; it is
deterministic; and the digest hashed is sized `max(10, ceil(length * 5 / 8))`
bytes.  (The claim's original range `length ≥ 1` fails at `length = 52`,
where the digest size exceeds BLAKE2s's 32-byte cap.) -/
theorem claim_C6_token_shape :
    ∀ (seed : String) (L : Nat) (ns : Option String),
      1 ≤ L → L ≤ 51 → pyStrip seed ≠ "" → (∀ n, ns = some n → pyStrip n ≠ "") →
      ∃ t, build_compact_token seed L ns = Except.ok t ∧
        t.length = L ∧
        (∀ c ∈ t.data, c ∈ b32LowerAlphabet) ∧
        build_compact_token seed L ns = build_compact_token seed L ns ∧
        (∀ content, composeContent seed ns = Except.ok content →
          t = String.mk (((b32stripped (blake2s (strToBytes content)
            (max 10 ((5 * L + 7) / 8)))).map asciiLower).take L)) := by
  intro seed L ns h1 h2 h3 h4
  obtain ⟨t, ht⟩ := token_ok_exists h1 h2 h3 h4
  refine ⟨t, ht, token_ok_length ht, token_ok_alphabet ht, rfl, ?_⟩
  intro content hc
  obtain ⟨c2, hc2, rfl, -, -⟩ := token_ok_parts ht
  have : (Except.ok content : Except String String) = Except.ok c2 := hc.symm.trans hc2
  cases this
  rfl

/-- Witness for C6 at `("same-seed", 10, "ns")`. -/
theorem claim_C6_token_shape_witness :
    ∃ t, build_compact_token "same-seed" 10 (some "ns") = Except.ok t ∧
      t.length = 10 ∧
      (∀ c ∈ t.data, c ∈ b32LowerAlphabet) ∧
      build_compact_token "same-seed" 10 (some "ns") =
        build_compact_token "same-seed" 10 (some "ns") ∧
      (∀ content, composeContent "same-seed" (some "ns") = Except.ok content →
        t = String.mk (((b32stripped (blake2s (strToBytes content)
          (max 10 ((5 * 10 + 7) / 8)))).map asciiLower).take 10)) :=
  claim_C6_token_shape "same-seed" 10 (some "ns") (by omega) (by omega) (by decide)
    (by intro n hn; cases hn; decide)

/-! ## Lemmas about the identifier composer -/

theorem build_ok_shape {env : Env} {app : String} {inst : Option String} {ml : Nat}
    {sn : Option String} {conns : Option (List Connection)} {s : String}
    (h : build_auto_client_id env app inst ml sn conns = .ok s) :
    ∃ app_norm seed suffix,
      validate_client_id_component app "app_name" = .ok app_norm ∧
      build_compact_token seed (min 12 (max 8 (ml - 4))) (some "mqtt-client") =
        .ok suffix ∧
      (s = strTake suffix ml ∨
        s = strTake (strTake app_norm (ml - suffix.length - 1) ++ "-" ++ suffix) ml) := by
  unfold build_auto_client_id at h
  split at h
  · simp at h
  · next app_norm happ =>
    split at h
    · simp at h
    · split at h
      · simp at h
      · dsimp only at h
        split at h
        · simp at h
        · next suffix htok =>
          split at h
          · simp only [Except.ok.injEq] at h
            exact ⟨app_norm, _, suffix, happ, htok, Or.inl h.symm⟩
          · split at h
            · simp only [Except.ok.injEq] at h
              exact ⟨app_norm, _, suffix, happ, htok, Or.inl h.symm⟩
            · simp only [Except.ok.injEq] at h
              exact ⟨app_norm, _, suffix, happ, htok, Or.inr h.symm⟩

/-- Claim C2: every successful result of `build_auto_client_id` has length at
most `max_length` (every return path truncates to `max_length`). -/
theorem claim_C2_length_bound :
    ∀ (env : Env) (app : String) (inst : Option String) (ml : Nat)
      (sn : Option String) (conns : Option (List Connection)) (s : String),
      build_auto_client_id env app inst ml sn conns = Except.ok s →
      s.length ≤ ml := by
  intro env app inst ml sn conns s h
  obtain ⟨an, seed, suffix, -, -, hcase⟩ := build_ok_shape h
  rcases hcase with rfl | rfl <;>
    (rw [strlength_eq_data, strTake_data, List.length_take]; omega)

set_option maxRecDepth 40000 in
/-- Witness for C2 at the end-to-end input of the spec's scenario. -/
theorem claim_C2_length_bound_witness : ("agent-q2ypm3uh2ga7" : String).length ≤ 23 :=
  claim_C2_length_bound emptyEnv "agent" (some "worker1") 23 (some "serial-client")
    (some []) "agent-q2ypm3uh2ga7" rfl

/-- Counterexample to claim C3 as stated: the validated app name `"a--b"`
(hyphens are allowed by the validator) yields an identifier with a doubled
hyphen, which does not match `^[a-z0-9]+(-[a-z0-9]+)*$`. -/
theorem claim_C3_counterexample :
    build_auto_client_id emptyEnv "a--b" none 23 (some "x") (some []) =
      Except.ok "a--b-7ggfvpdvaezk" ∧
    matchesIdShape "a--b-7ggfvpdvaezk" = false := by
  constructor
  · set_option maxRecDepth 40000 in rfl
  · rfl

/-- Claim C3 (amended): every successful result of `build_auto_client_id`
consists only of lowercase letters, digits and hyphens.  (The claim's
stronger regular-expression shape `^[a-z0-9]+(-[a-z0-9]+)*$` fails when the
validated app name itself carries leading, trailing or doubled hyphens into
the truncated prefix.) -/
theorem claim_C3_alphabet :
    ∀ (env : Env) (app : String) (inst : Option String) (ml : Nat)
      (sn : Option String) (conns : Option (List Connection)) (s : String),
      build_auto_client_id env app inst ml sn conns = Except.ok s →
      ∀ c ∈ s.data, isLowerIdChar c = true := by
  intro env app inst ml sn conns s h c hc
  obtain ⟨an, seed, suffix, happ, htok, hcase⟩ := build_ok_shape h
  have hsuf : ∀ d ∈ suffix.data, isLowerIdChar d = true := fun d hd =>
    mem_b32LowerAlphabet_idChar d (token_ok_alphabet htok d hd)
  have happc := validate_ok_chars happ
  rcases hcase with rfl | rfl
  · rw [strTake_data] at hc
    exact hsuf c (List.mem_of_mem_take hc)
  · rw [strTake_data] at hc
    have hc' := List.mem_of_mem_take hc
    rw [strdata_append, strdata_append, strTake_data] at hc'
    rcases List.mem_append.mp hc' with h' | h'
    · rcases List.mem_append.mp h' with h'' | h''
      · exact happc c (List.mem_of_mem_take h'')
      · rcases List.mem_cons.mp (show c ∈ ['-'] from h'') with rfl | h3
        · decide
        · cases h3
    · exact hsuf c h'

set_option maxRecDepth 40000 in
/-- Witness for C3 (amended). -/
theorem claim_C3_alphabet_witness :
    ("agent-q2ypm3uh2ga7" : String).data.all isLowerIdChar = true :=
  List.all_eq_true.mpr
    (claim_C3_alphabet emptyEnv "agent" (some "worker1") 23 (some "serial-client")
      (some []) "agent-q2ypm3uh2ga7" rfl)

set_option maxRecDepth 80000 in
/-- Counterexample to claim C1 as stated: for the identical fixed tuple
(`app_name="agent"`, no instance id, `max_length=23`, `serial_number=None`,
`connections=[]`), two invocations on platforms with different hostnames
return different strings — the fingerprint falls back to the hostname, which
is not part of the fixed tuple. -/
theorem claim_C1_counterexample :
    build_auto_client_id ⟨some "host-a", none, []⟩ "agent" none 23 none (some []) =
      Except.ok "agent-wealkrk6qr2c" ∧
    build_auto_client_id ⟨some "host-b", none, []⟩ "agent" none 23 none (some []) =
      Except.ok "agent-ftk7hclg4wfw" ∧
    ("agent-wealkrk6qr2c" : String) ≠ "agent-ftk7hclg4wfw" :=
  ⟨rfl, rfl, by decide⟩

/-- Claim C1 (amended): `build_auto_client_id` is a pure function of its
inputs and the probed environment, so two invocations of the same tuple in
the same environment always agree (first conjunct); and the result is
byte-for-byte identical across environments/platforms whenever the fixed
tuple itself determines the fingerprint: a non-empty serial number (second
conjunct), or supplied connections containing a usable address (third
conjunct).  (In the remaining hostname-fallback cases — serial absent or
empty and no usable supplied connection — the output depends on the platform
hostname, so cross-platform determinism fails there, as the counterexample
shows.) -/
theorem claim_C1_determinism :
    ∀ (env env' : Env) (app : String) (inst : Option String) (ml : Nat)
      (serial : Option String) (conns : Option (List Connection)),
      (build_auto_client_id env app inst ml serial conns =
        build_auto_client_id env app inst ml serial conns) ∧
      (∀ sn, serial = some sn → pyStrip sn ≠ "" →
        build_auto_client_id env app inst ml serial conns =
          build_auto_client_id env' app inst ml serial conns) ∧
      (∀ l r, conns = some l →
        firstUsable (List.insertionSort connLe l) = some r →
        build_auto_client_id env app inst ml serial conns =
          build_auto_client_id env' app inst ml serial conns) := by
  intro env env' app inst ml serial conns
  refine ⟨rfl, ?_, ?_⟩
  · intro sn hs hsn
    subst hs
    have hfp : ∀ (e : Env) (cs : List Connection),
        resolve_device_fingerprint e (some sn) cs = "sn:" ++ strLower (pyStrip sn) := by
      intro e cs
      unfold resolve_device_fingerprint
      dsimp only
      rw [if_neg hsn]
    cases conns with
    | none =>
      unfold build_auto_client_id
      dsimp only
      rw [hfp env, hfp env']
    | some l =>
      unfold build_auto_client_id
      dsimp only
      rw [hfp env, hfp env']
  · intro l r hl hfu
    subst hl
    have hrc : ∀ e : Env, resolveConns e l = r := by
      intro e
      unfold resolveConns
      rw [hfu]
    cases serial with
    | none =>
      have hfp : ∀ e : Env, resolve_device_fingerprint e none l = r := fun e => hrc e
      unfold build_auto_client_id
      dsimp only
      rw [hfp env, hfp env']
    | some s =>
      have hfp : ∀ e : Env, resolve_device_fingerprint e (some s) l =
          (if pyStrip s = "" then r else "sn:" ++ strLower (pyStrip s)) := by
        intro e
        unfold resolve_device_fingerprint
        dsimp only
        split_ifs with h
        · exact hrc e
        · rfl
      unfold build_auto_client_id
      dsimp only
      rw [hfp env, hfp env']

/-- Witness for C1 (amended): same-environment equality, cross-environment
equality with a non-empty serial, and cross-environment equality with a
usable supplied connection, each at concrete inputs. -/
theorem claim_C1_determinism_witness :
    (build_auto_client_id emptyEnv "agent" none 23 (some "serial-client") (some []) =
      build_auto_client_id emptyEnv "agent" none 23 (some "serial-client") (some [])) ∧
    (build_auto_client_id emptyEnv "agent" none 23 (some "serial-client") (some []) =
      build_auto_client_id ⟨some "otherhost", some "othersn", [(CONN_MAC, "aa:bb:cc:dd:ee:ff")]⟩
        "agent" none 23 (some "serial-client") (some [])) ∧
    (build_auto_client_id ⟨some "host-a", none, []⟩ "app" none 23 none
        (some [(CONN_MAC, "aa:bb:cc:dd:ee:ff")]) =
      build_auto_client_id ⟨some "host-b", none, []⟩ "app" none 23 none
        (some [(CONN_MAC, "aa:bb:cc:dd:ee:ff")])) := by
  have h1 := claim_C1_determinism emptyEnv
    ⟨some "otherhost", some "othersn", [(CONN_MAC, "aa:bb:cc:dd:ee:ff")]⟩
    "agent" none 23 (some "serial-client") (some [])
  have h2 := claim_C1_determinism ⟨some "host-a", none, []⟩ ⟨some "host-b", none, []⟩
    "app" none 23 none (some [(CONN_MAC, "aa:bb:cc:dd:ee:ff")])
  exact ⟨h1.1, h1.2.1 "serial-client" rfl (by decide),
    h2.2.2 [(CONN_MAC, "aa:bb:cc:dd:ee:ff")] "mac:aa:bb:cc:dd:ee:ff" rfl rfl⟩

/-- Claim C4: the end-to-end scenario: `build_auto_client_id` on
`("agent", "worker1", serial "serial-client", connections [])` (at the
default `max_length = 23`) equals the manual composition prescribed by the
spec, and the code's hash length is the spec's `clamp(max_length - 4, 8, 12)`
for every `max_length`. -/
theorem claim_C4_end_to_end :
    (∀ env : Env,
      build_auto_client_id env "agent" (some "worker1") 23
        (some "serial-client") (some []) = specScenarioClientId 23) ∧
    (∀ ml : Nat, min 12 (max 8 (ml - 4)) = specClamp (ml - 4) 8 12) := by
  constructor
  · intro env
    set_option maxRecDepth 80000 in rfl
  · intro ml
    unfold specClamp
    omega

/-- Claim C9: connections supplied by the caller bypass
`_normalize_connections` (which runs only inside `collect_device_facts`): a
placeholder all-zero MAC supplied directly is used verbatim as the
fingerprint, even though normalization would have discarded it. -/
theorem claim_C9_supplied_connections_bypass :
    resolve_device_fingerprint emptyEnv none [(CONN_MAC, "00:00:00:00:00:00")] =
      "mac:00:00:00:00:00:00" ∧
    normalize_connections [(CONN_MAC, "00:00:00:00:00:00")] = [] ∧
    (∀ env : Env,
      collect_device_facts env =
        (env.probedSerial, normalize_connections env.probedConnections)) ∧
    build_auto_client_id emptyEnv "app" none 23 none
        (some [(CONN_MAC, "00:00:00:00:00:00")]) =
      (build_compact_token ("mac:00:00:00:00:00:00" ++ "\x1f" ++ "app") 12
        (some "mqtt-client")).map (fun t => "app-" ++ t) := by
  refine ⟨?_, rfl, fun _ => rfl, ?_⟩
  · set_option maxRecDepth 40000 in rfl
  · set_option maxRecDepth 80000 in rfl

/-! ## Lemmas about connection normalization -/

theorem normalizeMac_shape {v mac : String} (h : normalizeMac v = some mac) :
    ∃ raw : List Char, raw.length = 12 ∧
      raw.all (fun c => hexChars.contains c) = true ∧
      mac = String.mk (pairJoin raw) := by
  unfold normalizeMac at h
  dsimp only at h
  split_ifs at h with hcond
  · simp only [Option.some.injEq] at h
    rw [Bool.and_eq_true, decide_eq_true_eq] at hcond
    exact ⟨_, hcond.1, hcond.2, h.symm⟩

theorem mem_setInsert {l : List Connection} {x y : Connection}
    (h : x ∈ setInsert l y) : x ∈ l ∨ x = y := by
  unfold setInsert at h
  split_ifs at h
  · exact Or.inl h
  · rcases List.mem_append.mp h with h' | h'
    · exact Or.inl h'
    · exact Or.inr (List.mem_singleton.mp h')

theorem normalizeStep_props {acc : List Connection} {kv x : Connection}
    (hx : x ∈ normalizeStep acc kv) :
    x ∈ acc ∨
      ((∃ raw : List Char, raw.length = 12 ∧
          raw.all (fun c => hexChars.contains c) = true ∧
          x.2 = String.mk (pairJoin raw)) ∧
        x.2 ≠ "00:00:00:00:00:00" ∧ x.2 ≠ "ff:ff:ff:ff:ff:ff" ∧
        (x.1 = CONN_MAC → isGlobalMac x.2 = true)) := by
  unfold normalizeStep at hx
  split at hx
  · exact Or.inl hx
  · next mac hmac =>
    split_ifs at hx with h1 h2 h3 h4 h5
    · exact Or.inl hx
    · exact Or.inl hx
    · rcases mem_setInsert hx with h' | rfl
      · exact Or.inl h'
      · refine Or.inr ⟨normalizeMac_shape hmac, ?_, ?_, fun _ => h4⟩ <;>
          (intro hbad; dsimp only at hbad; subst hbad; simp at h2)
    · exact Or.inl hx
    · rcases mem_setInsert hx with h' | rfl
      · exact Or.inl h'
      · refine Or.inr ⟨normalizeMac_shape hmac, ?_, ?_, ?_⟩
        · intro hbad; dsimp only at hbad; subst hbad; simp at h2
        · intro hbad; dsimp only at hbad; subst hbad; simp at h2
        · intro hk; dsimp only at hk; exact absurd hk (by decide)
    · exact Or.inl hx

/-- Claim C8: every tuple emitted by `_normalize_connections` carries an
address that is exactly 12 lowercase hex digits re-grouped into
colon-separated octets; all-zero and all-ff placeholder addresses are
discarded; mac-kind tuples survive only with the multicast and
locally-administered bits of the first octet clear; and a supplied
`("mac", "00:00:00:00:00:00")` never survives. -/
theorem claim_C8_normalization :
    (∀ (conns : List Connection) (k a : String),
      (k, a) ∈ normalize_connections conns →
      (∃ raw : List Char, raw.length = 12 ∧
          raw.all (fun c => hexChars.contains c) = true ∧
          a = String.mk (pairJoin raw)) ∧
        a ≠ "00:00:00:00:00:00" ∧ a ≠ "ff:ff:ff:ff:ff:ff" ∧
        (k = CONN_MAC → isGlobalMac a = true)) ∧
    normalize_connections [(CONN_MAC, "00:00:00:00:00:00")] = [] := by
  constructor
  · intro conns
    have haux : ∀ (l acc : List Connection),
        (∀ kv ∈ acc,
          (∃ raw : List Char, raw.length = 12 ∧
              raw.all (fun c => hexChars.contains c) = true ∧
              kv.2 = String.mk (pairJoin raw)) ∧
            kv.2 ≠ "00:00:00:00:00:00" ∧ kv.2 ≠ "ff:ff:ff:ff:ff:ff" ∧
            (kv.1 = CONN_MAC → isGlobalMac kv.2 = true)) →
        ∀ kv ∈ List.foldl normalizeStep acc l,
          (∃ raw : List Char, raw.length = 12 ∧
              raw.all (fun c => hexChars.contains c) = true ∧
              kv.2 = String.mk (pairJoin raw)) ∧
            kv.2 ≠ "00:00:00:00:00:00" ∧ kv.2 ≠ "ff:ff:ff:ff:ff:ff" ∧
            (kv.1 = CONN_MAC → isGlobalMac kv.2 = true) := by
      intro l
      induction l with
      | nil => intro acc hacc kv hkv; exact hacc kv hkv
      | cons hd tl ih =>
        intro acc hacc kv hkv
        refine ih _ ?_ kv hkv
        intro kv' hkv'
        rcases normalizeStep_props hkv' with h | h
        · exact hacc kv' h
        · exact h
    intro k a hm
    unfold normalize_connections at hm
    exact haux conns [] (by intro kv h; cases h) (k, a) hm
  · rfl

/-- Witness for C8 applied to a connection that does survive normalization. -/
theorem claim_C8_normalization_witness :
    (∃ raw : List Char, raw.length = 12 ∧
        raw.all (fun c => hexChars.contains c) = true ∧
        "12:34:56:78:90:ab" = String.mk (pairJoin raw)) ∧
      "12:34:56:78:90:ab" ≠ "00:00:00:00:00:00" ∧
      "12:34:56:78:90:ab" ≠ "ff:ff:ff:ff:ff:ff" ∧
      (CONN_BT = CONN_MAC → isGlobalMac "12:34:56:78:90:ab" = true) :=
  claim_C8_normalization.1 [(CONN_BT, "1234567890ab")] CONN_BT "12:34:56:78:90:ab"
    (by decide)

/-! ## Lemmas about the fingerprint resolver -/

theorem connLe_refl (c : Connection) : connLe c c := Or.inr ⟨rfl, le_refl _⟩

theorem exists_min_conn :
    ∀ (l : List Connection), l ≠ [] → ∃ c ∈ l, ∀ d ∈ l, connLe c d := by
  intro l
  induction l with
  | nil => intro h; exact absurd rfl h
  | cons hd tl ih =>
    intro _
    rcases eq_or_ne tl [] with rfl | hne
    · refine ⟨hd, List.mem_cons_self hd [], ?_⟩
      intro d hd'
      rcases List.mem_cons.mp hd' with rfl | h'
      · exact connLe_refl d
      · cases h'
    · obtain ⟨c, hc, hmin⟩ := ih hne
      by_cases h : connLe c hd
      · refine ⟨c, List.mem_cons_of_mem _ hc, ?_⟩
        intro d hd'
        rcases List.mem_cons.mp hd' with rfl | h'
        · exact h
        · exact hmin d h'
      · have hcd : connLe hd c := (IsTotal.total c hd).resolve_left h
        refine ⟨hd, List.mem_cons_self hd tl, ?_⟩
        intro d hd'
        rcases List.mem_cons.mp hd' with rfl | h'
        · exact connLe_refl d
        · exact IsTrans.trans hd c d hcd (hmin d h')

theorem resolveConns_min {env : Env} {conns : List Connection}
    (hkinds : ∀ c ∈ conns, c.1 = CONN_MAC ∨ c.1 = CONN_BT)
    (haddr : ∀ c ∈ conns, pyStrip c.2 = c.2 ∧ strLower c.2 = c.2 ∧ c.2 ≠ "")
    {c : Connection} (hc : c ∈ conns) (hmin : ∀ d ∈ conns, connLe c d) :
    resolveConns env conns = c.1 ++ ":" ++ c.2 := by
  unfold resolveConns
  have hperm := List.perm_insertionSort connLe conns
  have hsorted := List.sorted_insertionSort connLe conns
  have hmem : c ∈ List.insertionSort connLe conns := hperm.mem_iff.mpr hc
  cases hs : List.insertionSort connLe conns with
  | nil => rw [hs] at hmem; cases hmem
  | cons hd tl =>
    have hhd_mem : hd ∈ conns := hperm.mem_iff.mp (hs ▸ List.mem_cons_self hd tl)
    have h1 : connLe c hd := hmin hd hhd_mem
    have h2 : connLe hd c := by
      rw [hs] at hsorted hmem
      rcases List.mem_cons.mp hmem with rfl | hmem'
      · exact connLe_refl c
      · exact List.rel_of_sorted_cons hsorted c hmem'
    have hkeq : hd = c := by
      have hrank : connRank hd.1 = connRank c.1 := by
        rcases h1 with h1 | ⟨e1, -⟩ <;> rcases h2 with h2 | ⟨e2, -⟩ <;> omega
      have ha : hd.2 = c.2 := by
        rcases h1 with h1 | ⟨-, l1⟩
        · omega
        · rcases h2 with h2 | ⟨-, l2⟩
          · omega
          · exact le_antisymm l2 l1
      have hk : hd.1 = c.1 := by
        rcases hkinds hd hhd_mem with hm | hm <;> rcases hkinds c hc with hm' | hm' <;>
          rw [hm, hm'] <;> rw [hm, hm'] at hrank <;> first | rfl | simp [connRank, CONN_MAC, CONN_BT] at hrank
      exact Prod.ext hk ha
    subst hkeq
    obtain ⟨k, v⟩ := hd
    obtain ⟨hstrip, hlow, hne⟩ := haddr (k, v) hc
    show (match firstUsable ((k, v) :: tl) with
      | some r => r
      | none => hostFallback env) = (k, v).1 ++ ":" ++ (k, v).2
    unfold firstUsable
    dsimp only at hstrip hlow hne ⊢
    rw [hstrip, if_neg hne, hlow]

/-- Counterexample to claim C5 as stated: for the connection list
`[("mac", " "), ("bluetooth", "b")]` the lexicographically-first
`(type_rank, address)` connection is the mac one (rank 0 beats rank 1), yet
the code returns `"bluetooth:b"`: the loop skips connections whose address is
empty after trimming instead of choosing them, so clause (2) of the claim
fails on lists with blank addresses. -/
theorem claim_C5_counterexample :
    resolve_device_fingerprint emptyEnv none [(CONN_MAC, " "), (CONN_BT, "b")] =
      "bluetooth:b" ∧
    connLe (CONN_MAC, " ") (CONN_BT, "b") ∧
    ("bluetooth:b" : String) ≠ "mac: " ∧
    ("bluetooth:b" : String) ≠ "mac:" :=
  ⟨rfl, Or.inl (by decide), by decide, by decide⟩

/-- Claim C5 (amended): fingerprint priority, restricted to the spec's own
data model for connections (kinds in `{mac, bluetooth}`, addresses canonical:
trimmed, lowercase, non-empty — the scanning loop skips blank addresses
rather than choosing them, and emits addresses stripped and lowercased, so
the claim's clause (2) holds literally only for such lists):
(1) a non-empty serial wins as `sn:<lowercased-trimmed-serial>`;
(2) otherwise the connection minimal in `(type_rank, address)` order wins as
`<kind>:<address>`, independently of list order;
(3) otherwise a non-empty hostname gives `host:<lowercased-trimmed-name>`;
(4) otherwise the literal `host:unknown`; together with the claim's two
concrete examples. -/
theorem claim_C5_fingerprint_priority :
    ∀ (env : Env) (conns : List Connection),
      (∀ c ∈ conns, c.1 = CONN_MAC ∨ c.1 = CONN_BT) →
      (∀ c ∈ conns, pyStrip c.2 = c.2 ∧ strLower c.2 = c.2 ∧ c.2 ≠ "") →
      (∀ s : String, pyStrip s ≠ "" →
        resolve_device_fingerprint env (some s) conns =
          "sn:" ++ strLower (pyStrip s)) ∧
      (∀ c ∈ conns, (∀ d ∈ conns, connLe c d) →
        resolve_device_fingerprint env none conns = c.1 ++ ":" ++ c.2) ∧
      (∀ conns', conns.Perm conns' →
        resolve_device_fingerprint env none conns =
          resolve_device_fingerprint env none conns') ∧
      (conns = [] → ∀ hn, env.hostname = some hn → strLower (pyStrip hn) ≠ "" →
        resolve_device_fingerprint env none conns =
          "host:" ++ strLower (pyStrip hn)) ∧
      (conns = [] →
        (env.hostname = none ∨
          ∃ hn, env.hostname = some hn ∧ strLower (pyStrip hn) = "") →
        resolve_device_fingerprint env none conns = "host:unknown") ∧
      resolve_device_fingerprint env (some "ABC") [] = "sn:abc" ∧
      resolve_device_fingerprint env none
          [(CONN_MAC, "aa:bb:cc:dd:ee:ff"), (CONN_BT, "11:22:33:44:55:66")] =
        "mac:aa:bb:cc:dd:ee:ff" := by
  intro env conns hkinds haddr
  refine ⟨?_, ?_, ?_, ?_, ?_, rfl, rfl⟩
  · intro s hs
    unfold resolve_device_fingerprint
    dsimp only
    rw [if_neg hs]
  · intro c hc hmin
    exact resolveConns_min hkinds haddr hc hmin
  · intro conns' hp
    rcases eq_or_ne conns [] with rfl | hne
    · rw [← hp.nil_eq]
    · obtain ⟨c, hc, hmin⟩ := exists_min_conn conns hne
      have h1 := @resolveConns_min env conns hkinds haddr c hc hmin
      have h2 := @resolveConns_min env conns'
        (fun d hd => hkinds d (hp.mem_iff.mpr hd))
        (fun d hd => haddr d (hp.mem_iff.mpr hd))
        c (hp.mem_iff.mp hc) (fun d hd => hmin d (hp.mem_iff.mpr hd))
      show resolveConns env conns = resolveConns env conns'
      rw [h1, h2]
  · intro hnil hn hhost hne
    subst hnil
    have hres : resolve_device_fingerprint env none ([] : List Connection) =
        hostFallback env := rfl
    rw [hres]
    unfold hostFallback
    rw [hhost]
    dsimp only
    rw [if_neg hne]
  · intro hnil hcase
    subst hnil
    have hres : resolve_device_fingerprint env none ([] : List Connection) =
        hostFallback env := rfl
    rw [hres]
    unfold hostFallback
    rcases hcase with hnone | ⟨hn, hsome, hempty⟩
    · rw [hnone]
    · rw [hsome]
      dsimp only
      rw [if_pos hempty]

/-- Witness for C5 at the claim's mac-beats-bluetooth example. -/
theorem claim_C5_fingerprint_priority_witness :
    resolve_device_fingerprint emptyEnv none
        [(CONN_MAC, "aa:bb:cc:dd:ee:ff"), (CONN_BT, "11:22:33:44:55:66")] =
      "mac:aa:bb:cc:dd:ee:ff" :=
  (claim_C5_fingerprint_priority emptyEnv
    [(CONN_MAC, "aa:bb:cc:dd:ee:ff"), (CONN_BT, "11:22:33:44:55:66")]
    (by decide) (by decide)).2.1 (CONN_MAC, "aa:bb:cc:dd:ee:ff")
    (List.mem_cons_self _ _)
    (by
      intro d hd
      rcases List.mem_cons.mp hd with rfl | hd'
      · exact connLe_refl _
      · rcases List.mem_cons.mp hd' with rfl | hd''
        · exact Or.inl (by decide)
        · cases hd'')

end JMqtt
